import Mathlib

/-!
Shallow embedding of the agent core of this repository:
the Action/Plan data model (`src/agent/types.ts`), the policy engine
(`src/agent/policy.ts`), and the `ClaudeAgent` plan-source normalization and
execution coordinator (`src/agent/claudeAgent.ts`).

Conventions of the embedding:
* JavaScript `bigint` values become `Int` (arbitrary-precision signed integers,
  as in JS).
* The JS builtin `BigInt(string)` is modelled by `parseBigInt`, returning
  `none` where the builtin throws a `SyntaxError` (after whitespace trimming it
  accepts the empty string as 0, an optional sign followed by decimal digits,
  or an unsigned `0x`/`0o`/`0b`-prefixed numeral).
* Functions that can throw return `Except String _`; the thrown message is the
  payload.
* The external collaborators of `execute` (wallet transfer, Jupiter quote and
  swap, the per-action confirmation callback) are an explicit environment of
  pure functions, and `execute` additionally returns the ordered trace of the
  collaborator calls it makes, which is the observable behaviour of the
  side-effecting TS code.
-/

/-- JS `String.prototype.trim`: drop leading and trailing whitespace. -/
def jsTrim (s : String) : String :=
  String.mk (((s.toList.dropWhile Char.isWhitespace).reverse.dropWhile
    Char.isWhitespace).reverse)

/-- Value of one digit character, for radixes up to 16; `none` for a
non-digit. -/
def digitVal (c : Char) : Option Nat :=
  if c.isDigit then some (c.toNat - 48)
  else if 'a' ≤ c ∧ c ≤ 'f' then some (c.toNat - 87)
  else if 'A' ≤ c ∧ c ≤ 'F' then some (c.toNat - 55)
  else none

/-- Parse a non-empty all-digits string in the given radix; `none` on an empty
list or any character that is not a digit of the radix. -/
def radixDigitsToNat (radix : Nat) (cs : List Char) : Option Nat :=
  if cs.isEmpty then none
  else if cs.all (fun c => match digitVal c with
      | some v => decide (v < radix)
      | none => false) then
    some (cs.foldl (fun n c => n * radix + ((digitVal c).getD 0)) 0)
  else none

/-- The JS builtin `BigInt(string)`: `none` models the thrown `SyntaxError`.
After trimming, the empty string is 0; a sign is only allowed on decimal
numerals; `0x`/`0o`/`0b` prefixes give unsigned hex/octal/binary numerals. -/
def parseBigInt (s : String) : Option Int :=
  match (jsTrim s).toList with
  | [] => some 0
  | '0' :: 'x' :: rest => (radixDigitsToNat 16 rest).map Int.ofNat
  | '0' :: 'X' :: rest => (radixDigitsToNat 16 rest).map Int.ofNat
  | '0' :: 'o' :: rest => (radixDigitsToNat 8 rest).map Int.ofNat
  | '0' :: 'O' :: rest => (radixDigitsToNat 8 rest).map Int.ofNat
  | '0' :: 'b' :: rest => (radixDigitsToNat 2 rest).map Int.ofNat
  | '0' :: 'B' :: rest => (radixDigitsToNat 2 rest).map Int.ofNat
  | '+' :: rest => (radixDigitsToNat 10 rest).map Int.ofNat
  | '-' :: rest => (radixDigitsToNat 10 rest).map (fun n => -(n : Int))
  | cs => (radixDigitsToNat 10 cs).map Int.ofNat

/-- The message of the `SyntaxError` thrown by `BigInt(s)` when `s` does not
parse. -/
def bigIntErrorMsg (s : String) : String :=
  "Cannot convert " ++ s ++ " to a BigInt"

/-- `swapMode` of a Jupiter swap action (`types.ts`). -/
inductive SwapMode where
  | exactIn
  | exactOut
deriving DecidableEq, Repr

/-- `AgentAction` from `src/agent/types.ts`: the tagged union of proposable
operations. Amount fields (`lamports`, `amount`) are carried as strings, as in
the source. -/
inductive AgentAction where
  | noop (reason : Option String)
  | transferSol (toAddr : String) (lamports : String)
  | swapJupiter (inputMint : String) (outputMint : String) (amount : String)
      (slippageBps : Option Int) (swapMode : Option SwapMode)
deriving DecidableEq, Repr

/-- `AgentPlan` from `src/agent/types.ts`. -/
structure AgentPlan where
  goal : String
  summary : Option String := none
  actions : List AgentAction
deriving DecidableEq, Repr

/-- `AgentPolicy` from `src/agent/policy.ts`; every field is optional in the
TS type, hence `Option` here. -/
structure AgentPolicy where
  allowedRecipients : Option (List String) := none
  allowAllTransfers : Option Bool := none
  maxTransferLamports : Option Int := none
  allowedMints : Option (List String) := none
  allowAllSwaps : Option Bool := none
  maxSwapAmount : Option Int := none
  maxSlippageBps : Option Int := none
deriving DecidableEq, Repr

/-- `PolicyViolation` from `src/agent/policy.ts`. -/
structure PolicyViolation where
  path : String
  message : String
deriving DecidableEq, Repr

/-- JS truthiness of an optional boolean field: only `true` is truthy;
`false` and `undefined` are falsy. -/
def jsTruthy : Option Bool → Bool
  | some true => true
  | _ => false

/-- `validateActionPolicy` from `src/agent/policy.ts`. The `BigInt` calls on
`action.lamports` / `action.amount` throw on unparseable strings, which is why
the result is `Except`: an `error` models the exception escaping the function
(discarding the violations accumulated so far). -/
def validateActionPolicy (action : AgentAction) (policy : AgentPolicy)
    (path : String) : Except String (List PolicyViolation) :=
  match action with
  | .noop _ => .ok []
  | .transferSol toAddr lamports =>
    let vTo : List PolicyViolation :=
      if jsTruthy policy.allowAllTransfers then []
      else if (((policy.allowedRecipients.getD []).map jsTrim).contains
          (jsTrim toAddr)) then []
      else [⟨path ++ ".to", "Recipient is not allowlisted"⟩]
    match parseBigInt lamports with
    | none => .error (bigIntErrorMsg lamports)
    | some lam =>
      let vAmt : List PolicyViolation :=
        match policy.maxTransferLamports with
        | some m =>
          if lam > m then
            [⟨path ++ ".lamports", "Transfer exceeds maxTransferLamports"⟩]
          else []
        | none => []
      .ok (vTo ++ vAmt)
  | .swapJupiter inputMint outputMint amount slippageBps _ =>
    let vMints : List PolicyViolation :=
      if jsTruthy policy.allowAllSwaps then []
      else
        (if (((policy.allowedMints.getD []).map jsTrim).contains
            (jsTrim inputMint)) then []
         else [⟨path ++ ".inputMint", "inputMint is not allowlisted"⟩]) ++
        (if (((policy.allowedMints.getD []).map jsTrim).contains
            (jsTrim outputMint)) then []
         else [⟨path ++ ".outputMint", "outputMint is not allowlisted"⟩])
    match parseBigInt amount with
    | none => .error (bigIntErrorMsg amount)
    | some amt =>
      let vAmt : List PolicyViolation :=
        match policy.maxSwapAmount with
        | some m =>
          if amt > m then
            [⟨path ++ ".amount", "Swap exceeds maxSwapAmount"⟩]
          else []
        | none => []
      let vSlip : List PolicyViolation :=
        match slippageBps, policy.maxSlippageBps with
        | some s, some m =>
          if s > m then
            [⟨path ++ ".slippageBps", "slippageBps exceeds maxSlippageBps"⟩]
          else []
        | _, _ => []
      .ok (vMints ++ vAmt ++ vSlip)

/-- The indexed loop body of `validatePlanPolicy`: validate the actions from
index `i` on, accumulating violations; an exception from any action aborts the
whole call (losing earlier violations), as in the TS `for` loop. -/
def validateActionsFrom (policy : AgentPolicy) (i : Nat) :
    List AgentAction → Except String (List PolicyViolation)
  | [] => .ok []
  | a :: rest => do
    let v ← validateActionPolicy a policy ("actions[" ++ toString i ++ "]")
    let vs ← validateActionsFrom policy (i + 1) rest
    return v ++ vs

/-- `validatePlanPolicy` from `src/agent/policy.ts`. -/
def validatePlanPolicy (plan : AgentPlan) (policy : AgentPolicy) :
    Except String (List PolicyViolation) :=
  validateActionsFrom policy 0 plan.actions

/-- `ClaudeAgent.validate`: returns `[]` when the agent was constructed
without a policy, otherwise delegates to `validatePlanPolicy`. -/
def ClaudeAgent.validate (policy : Option AgentPolicy) (plan : AgentPlan) :
    Except String (List PolicyViolation) :=
  match policy with
  | none => .ok []
  | some p => validatePlanPolicy plan p

/-- The quote request `execute` sends to `getJupiterQuote` for a swap action
(`claudeAgent.ts`, the `swapJupiter` branch): note the `?? 50` default on
`slippageBps`. -/
structure JupiterQuoteParams where
  inputMint : String
  outputMint : String
  amount : String
  slippageBps : Int
  swapMode : Option SwapMode
deriving DecidableEq, Repr

/-- The quote object returned by the Jupiter collaborator; opaque to the
coordinator, which only forwards it to `executeJupiterSwap`. -/
structure JupiterQuote where
  raw : String
deriving DecidableEq, Repr

/-- One call `execute` makes to a collaborator or capability; the ordered list
of these calls is the observable effect trace of an execution. -/
inductive CollabCall where
  | confirmCall (a : AgentAction)
  | asPublicKeyCall (addr : String)
  | transferCall (pubkey : String) (lamports : Int)
  | quoteCall (p : JupiterQuoteParams)
  | swapCall (q : JupiterQuote)
deriving DecidableEq, Repr

/-- The environment of collaborators `execute` dispatches to. Each is a pure
function; `Except.error` models a thrown error / rejected promise.
`confirm?` is the optional per-action confirmation capability (TS
`opts.confirm`). -/
structure ExecEnv where
  confirm? : Option (AgentAction → Bool)
  asPublicKey : String → Except String String
  transferSol : String → Int → Except String String
  getJupiterQuote : JupiterQuoteParams → Except String JupiterQuote
  executeJupiterSwap : JupiterQuote → Except String String

/-- The body of one iteration of the `execute` loop after the confirmation
gate: dispatch on the action type, calling the collaborators in source order
(`asPublicKey(action.to)` and `BigInt(action.lamports)` are evaluated as the
arguments of `transferSol`, in that order). Returns the calls made and either
the thrown error or the optional signature pushed (`none` for a no-op). -/
def runAction (env : ExecEnv) (a : AgentAction) :
    List CollabCall × Except String (Option String) :=
  match a with
  | .noop _ => ([], .ok none)
  | .transferSol toAddr lamports =>
    match env.asPublicKey toAddr with
    | .error e => ([.asPublicKeyCall toAddr], .error e)
    | .ok pk =>
      match parseBigInt lamports with
      | none => ([.asPublicKeyCall toAddr], .error (bigIntErrorMsg lamports))
      | some lam =>
        match env.transferSol pk lam with
        | .error e => ([.asPublicKeyCall toAddr, .transferCall pk lam], .error e)
        | .ok sig =>
          ([.asPublicKeyCall toAddr, .transferCall pk lam], .ok (some sig))
  | .swapJupiter inputMint outputMint amount slippageBps swapMode =>
    let q : JupiterQuoteParams :=
      { inputMint := inputMint, outputMint := outputMint, amount := amount,
        slippageBps := slippageBps.getD 50, swapMode := swapMode }
    match env.getJupiterQuote q with
    | .error e => ([.quoteCall q], .error e)
    | .ok quote =>
      match env.executeJupiterSwap quote with
      | .error e => ([.quoteCall q, .swapCall quote], .error e)
      | .ok sig => ([.quoteCall q, .swapCall quote], .ok (some sig))

/-- One iteration of the `execute` loop: evaluate
`this.confirm?.(action) ?? true` (no call is made when no capability is
configured), skip the action when it answers `false`, otherwise run the
action body. -/
def execAction (env : ExecEnv) (a : AgentAction) :
    List CollabCall × Except String (Option String) :=
  match env.confirm? with
  | none => runAction env a
  | some f =>
    if f a then
      match runAction env a with
      | (tr, r) => (.confirmCall a :: tr, r)
    else ([.confirmCall a], .ok none)

/-- The `execute` loop over the plan's actions, in order: a thrown error
aborts the loop (actions after it are never reached, and the `sigs`
accumulated so far are lost with the exception); a skipped action contributes
no signature. -/
def executeActions (env : ExecEnv) :
    List AgentAction → List CollabCall × Except String (List String)
  | [] => ([], .ok [])
  | a :: rest =>
    match execAction env a with
    | (tr, .error e) => (tr, .error e)
    | (tr, .ok sig?) =>
      match executeActions env rest with
      | (tr2, .error e) => (tr ++ tr2, .error e)
      | (tr2, .ok sigs) => (tr ++ tr2, .ok (sig?.toList ++ sigs))

/-- The aggregated policy-breach message `execute` throws when internal
re-validation finds violations. -/
def policyBreachMsg (vs : List PolicyViolation) : String :=
  "Plan violates policy: " ++
    String.intercalate "; " (vs.map (fun x => x.path ++ ": " ++ x.message))

/-- `ClaudeAgent.execute`: re-validate internally; throw the aggregated error
on any violation (before any action, confirmation call or collaborator call);
otherwise run the action loop. An exception thrown by validation itself (an
unparseable amount) also propagates. -/
def ClaudeAgent.execute (policy : Option AgentPolicy) (env : ExecEnv)
    (plan : AgentPlan) : List CollabCall × Except String (List String) :=
  match ClaudeAgent.validate policy plan with
  | .error e => ([], .error e)
  | .ok vs =>
    if vs.isEmpty then executeActions env plan.actions
    else ([], .error (policyBreachMsg vs))

/-- A JSON value, as produced by parsing the inference collaborator's
response text. -/
inductive JsonValue where
  | null
  | bool (b : Bool)
  | num (n : Int)
  | str (s : String)
  | arr (elems : List JsonValue)
  | obj (fields : List (String × JsonValue))

/-- The JS guard `!plan || typeof plan !== 'object'` in `proposePlan`, over
parsed-JSON values: `null`, booleans, numbers and strings take the fallback
branch; arrays and objects do not (in JS, `typeof [] === 'object'`). -/
def jsFalsyOrNotObject : JsonValue → Bool
  | .arr _ => false
  | .obj _ => false
  | _ => true

/-- Property lookup `plan.actions` on a parsed-JSON value: only objects have
it (a parsed array has no `actions` property). -/
def getActionsField : JsonValue → Option JsonValue
  | .obj fields => (fields.find? (fun kv => kv.fst == "actions")).map
      (fun kv => kv.snd)
  | _ => none

/-- The JSON object `{ type: 'noop' }` used by the normalization fallbacks. -/
def noopActionJson : JsonValue :=
  .obj [("type", .str "noop")]

/-- The fields (other than `actions`) of the fallback plan
`{ goal, summary: 'Invalid plan', actions: [{ type: 'noop' }] }`. -/
def invalidPlanBase (goal : String) : JsonValue :=
  .obj [("goal", .str goal), ("summary", .str "Invalid plan")]

/-- The value `proposePlan` returns after normalization: the underlying parsed
value (whose other fields the caller sees unchanged) together with the final
value of its `actions` property, which the code overwrites in place. -/
structure ProposedPlan where
  base : JsonValue
  actions : List JsonValue

/-- The normalization step of `ClaudeAgent.proposePlan` applied to the parsed
inference response (`claudeAgent.ts`, after `createJson`): replace
non-objects by the invalid-plan fallback, coerce a missing/non-array
`actions` to `[{ type: 'noop' }]`, then truncate with
`actions.slice(0, maxActions)`. -/
def proposePlanNormalize (goal : String) (maxActions : Nat)
    (resp : JsonValue) : ProposedPlan :=
  if jsFalsyOrNotObject resp then
    { base := invalidPlanBase goal, actions := [noopActionJson] }
  else
    let acts : List JsonValue :=
      match getActionsField resp with
      | some (.arr xs) => xs
      | _ => [noopActionJson]
    { base := resp, actions := acts.take maxActions }

/-- Is this violation one of the two swap-allowlist (mint) violations? -/
def isMintViolation (v : PolicyViolation) : Bool :=
  v.message == "inputMint is not allowlisted" ||
  v.message == "outputMint is not allowlisted"

/-- A collaborator environment in which transfers succeed with signature
`"sig1"`, quotes succeed, and swap submission fails with the error
`"boom"`; no confirmation capability is configured. -/
def failingSwapEnv : ExecEnv :=
  { confirm? := none,
    asPublicKey := fun s => .ok s,
    transferSol := fun _ _ => .ok "sig1",
    getJupiterQuote := fun _ => .ok ⟨"quote"⟩,
    executeJupiterSwap := fun _ => .error "boom" }

/-- `failingSwapEnv` with a confirmation capability that refuses every
action. -/
def denyAllEnv : ExecEnv :=
  { failingSwapEnv with confirm? := some (fun _ => false) }

/-- The three-action plan of the spec's execution-order example:
valid transfer, swap that fails at submission, valid transfer. -/
def threeActionPlan : AgentPlan :=
  { goal := "g",
    actions := [.transferSol "Alice" "5",
      .swapJupiter "A" "B" "7" none none,
      .transferSol "Bob" "5"] }

/-- A policy admitting every transfer and every swap. -/
def allowAllPolicy : AgentPolicy :=
  { allowAllTransfers := some true, allowAllSwaps := some true }

/-- A five-entry `actions` array, for the truncation example. -/
def fiveActions : List JsonValue :=
  [.num 1, .num 2, .num 3, .num 4, .num 5]

/-- A parsed inference response whose `actions` field holds `fiveActions`. -/
def fiveActionResp : JsonValue :=
  .obj [("actions", .arr fiveActions)]

/-- Claim C2: contrary to the claim, `validatePlanPolicy` is not total:
on a `transferSol` action whose `lamports` is `"abc"` the `BigInt` call
throws (modelled by `Except.error`) instead of returning a violation
list, and on the negative amount `"-5"` under `maxTransferLamports = 10`
it reports no violation at all. -/
theorem validate_crashes_on_unparseable_amount :
    validatePlanPolicy { goal := "g", actions := [.transferSol "addr" "abc"] }
      { allowAllTransfers := some true }
      = .error "Cannot convert abc to a BigInt" ∧
    validatePlanPolicy { goal := "g", actions := [.transferSol "addr" "-5"] }
      { allowAllTransfers := some true, maxTransferLamports := some 10 }
      = .ok [] :=
  ⟨rfl, rfl⟩

/-- Claim C3: whenever internal re-validation returns a non-empty list of
violations, `execute` fails with the single aggregated policy-breach error
and its collaborator-call trace is empty: no transfer, no swap, and no
confirmation callback happens before the error. -/
theorem policy_breach_halts_execute_atomically (policy : Option AgentPolicy)
    (env : ExecEnv) (plan : AgentPlan) (vs : List PolicyViolation)
    (hval : ClaudeAgent.validate policy plan = .ok vs) (hne : vs ≠ []) :
    ClaudeAgent.execute policy env plan = ([], .error (policyBreachMsg vs)) := by
  cases vs with
  | nil => exact absurd rfl hne
  | cons v rest => unfold ClaudeAgent.execute; rw [hval]; rfl

/-- Witness for `policy_breach_halts_execute_atomically`: the empty policy
rejects a transfer plan and `execute` makes no call. -/
theorem policy_breach_halts_execute_atomically_witness :
    ClaudeAgent.execute (some {}) failingSwapEnv
        { goal := "g", actions := [.transferSol "r" "1"] } =
      ([], .error (policyBreachMsg
        [⟨"actions[0].to", "Recipient is not allowlisted"⟩])) :=
  policy_breach_halts_execute_atomically (some {}) failingSwapEnv
    { goal := "g", actions := [.transferSol "r" "1"] }
    [⟨"actions[0].to", "Recipient is not allowlisted"⟩] rfl (by simp)

/-- Claim C4: deny-by-default: with `allowAllTransfers` false or absent and
`allowedRecipients` empty or absent, every `transferSol` action (whatever
its recipient, and whatever its amount string, which by the data-model
invariant parses as an integer) yields the recipient-allowlist violation,
at the head of the returned list. -/
theorem transfers_denied_by_default (p : AgentPolicy)
    (toAddr lamports path : String) (n : Int)
    (hall : jsTruthy p.allowAllTransfers = false)
    (hrec : p.allowedRecipients = none ∨ p.allowedRecipients = some [])
    (hparse : parseBigInt lamports = some n) :
    ∃ rest, validateActionPolicy (.transferSol toAddr lamports) p path
      = .ok (⟨path ++ ".to", "Recipient is not allowlisted"⟩ :: rest) := by
  rcases hrec with h | h <;>
    simp [validateActionPolicy, h, hall, hparse]

/-- Witness for `transfers_denied_by_default` on the empty policy. -/
theorem transfers_denied_by_default_witness :
    ∃ rest, validateActionPolicy (.transferSol "X" "7") {} "actions[0]"
      = .ok (⟨"actions[0]" ++ ".to", "Recipient is not allowlisted"⟩ :: rest) :=
  transfers_denied_by_default {} "X" "7" "actions[0]" 7 rfl (Or.inl rfl) rfl

/-- Claim C5: an agent constructed without a policy validates every plan to
the empty violation list, so `execute` always proceeds into the action
loop — allow-all, unlike the empty policy, which rejects a transfer. -/
theorem absent_policy_behaves_allow_all (plan : AgentPlan) (env : ExecEnv) :
    ClaudeAgent.validate none plan = .ok [] ∧
    ClaudeAgent.execute none env plan = executeActions env plan.actions ∧
    ClaudeAgent.validate (some {}) { goal := "g", actions := [.transferSol "r" "1"] }
      = .ok [⟨"actions[0].to", "Recipient is not allowlisted"⟩] :=
  ⟨rfl, rfl, rfl⟩

/-- Claim C6: with `allowAllSwaps` not true, the two sides of a swap are
checked against `allowedMints` independently: the returned list contains
exactly one mint violation per failing side (two when both sides are
missing from the allowlist, one when only one side is), with the input
and output violations present whenever the respective side fails. -/
theorem swap_allowlist_checked_per_side (p : AgentPolicy)
    (im om amt path : String) (sl : Option Int) (sm : Option SwapMode) (n : Int)
    (hall : jsTruthy p.allowAllSwaps = false)
    (hparse : parseBigInt amt = some n) :
    ∃ vs, validateActionPolicy (.swapJupiter im om amt sl sm) p path = .ok vs ∧
      (vs.filter isMintViolation).length =
        ((if ((p.allowedMints.getD []).map jsTrim).contains (jsTrim im)
            then 0 else 1) +
         (if ((p.allowedMints.getD []).map jsTrim).contains (jsTrim om)
            then 0 else 1)) ∧
      (((p.allowedMints.getD []).map jsTrim).contains (jsTrim im) = false →
        (⟨path ++ ".inputMint", "inputMint is not allowlisted"⟩ : PolicyViolation)
          ∈ vs) ∧
      (((p.allowedMints.getD []).map jsTrim).contains (jsTrim om) = false →
        (⟨path ++ ".outputMint", "outputMint is not allowlisted"⟩ : PolicyViolation)
          ∈ vs) := by
  cases hok : validateActionPolicy (.swapJupiter im om amt sl sm) p path with
  | error e =>
    exfalso
    simp [validateActionPolicy, hall, hparse] at hok
  | ok vs =>
    refine ⟨vs, rfl, ?_, ?_, ?_⟩ <;>
      simp only [validateActionPolicy, hall, hparse, Bool.false_eq_true,
        if_false, Except.ok.injEq] at hok <;>
      subst hok
    · cases h1 : ((p.allowedMints.getD []).map jsTrim).contains (jsTrim im) <;>
      cases h2 : ((p.allowedMints.getD []).map jsTrim).contains (jsTrim om) <;>
      simp [h1, h2, List.filter_append, isMintViolation] <;>
      cases p.maxSwapAmount <;> cases sl <;> cases p.maxSlippageBps <;>
      simp [isMintViolation]
    · intro h1
      simp at h1
      simp
      exact Or.inl h1
    · intro h2
      simp at h2
      simp
      exact Or.inl h2

/-- Witness for `swap_allowlist_checked_per_side`: allowlist `["A"]` and a
swap from `"A"` to `"B"` — only the output side is disallowed. -/
theorem swap_allowlist_checked_per_side_witness :
    ∃ vs, validateActionPolicy (.swapJupiter "A" "B" "7" none none)
        { allowedMints := some ["A"] } "actions[0]" = .ok vs ∧
      (vs.filter isMintViolation).length =
        ((if ((((some ["A"] : Option (List String))).getD []).map
              jsTrim).contains (jsTrim "A") then 0 else 1) +
         (if ((((some ["A"] : Option (List String))).getD []).map
              jsTrim).contains (jsTrim "B") then 0 else 1)) ∧
      (((((some ["A"] : Option (List String))).getD []).map jsTrim).contains
          (jsTrim "A") = false →
        (⟨"actions[0]" ++ ".inputMint", "inputMint is not allowlisted"⟩ :
          PolicyViolation) ∈ vs) ∧
      (((((some ["A"] : Option (List String))).getD []).map jsTrim).contains
          (jsTrim "B") = false →
        (⟨"actions[0]" ++ ".outputMint", "outputMint is not allowlisted"⟩ :
          PolicyViolation) ∈ vs) :=
  swap_allowlist_checked_per_side { allowedMints := some ["A"] }
    "A" "B" "7" "actions[0]" none none 7 rfl rfl

/-- Claim C7: with `maxTransferLamports = m` and an admitted recipient, an
amount equal to `m` validates with no violation at all, and an amount
equal to `m + 1` yields exactly the amount-limit violation. -/
theorem transfer_amount_boundary (p : AgentPolicy)
    (toAddr path sEq sOver : String) (m : Int)
    (hmax : p.maxTransferLamports = some m)
    (hAllowed : jsTruthy p.allowAllTransfers = true ∨
      ((p.allowedRecipients.getD []).map jsTrim).contains (jsTrim toAddr) = true)
    (hEq : parseBigInt sEq = some m)
    (hOver : parseBigInt sOver = some (m + 1)) :
    validateActionPolicy (.transferSol toAddr sEq) p path = .ok [] ∧
    validateActionPolicy (.transferSol toAddr sOver) p path
      = .ok [⟨path ++ ".lamports", "Transfer exceeds maxTransferLamports"⟩] := by
  constructor <;> rcases hAllowed with h | h <;>
    [skip; (simp at h); skip; (simp at h)] <;>
    simp [validateActionPolicy, h, hmax, hEq, hOver, Int.lt_add_one_iff]

/-- Witness for `transfer_amount_boundary` at the boundary 10 / 11. -/
theorem transfer_amount_boundary_witness :
    validateActionPolicy (.transferSol "X" "10")
        { allowAllTransfers := some true, maxTransferLamports := some 10 }
        "actions[0]" = .ok [] ∧
    validateActionPolicy (.transferSol "X" "11")
        { allowAllTransfers := some true, maxTransferLamports := some 10 }
        "actions[0]"
      = .ok [⟨"actions[0]" ++ ".lamports",
          "Transfer exceeds maxTransferLamports"⟩] :=
  transfer_amount_boundary
    { allowAllTransfers := some true, maxTransferLamports := some 10 }
    "X" "actions[0]" "10" "11" 10 rfl (Or.inl rfl) rfl (by decide)

/-- Claim C8: for a swap action without `slippageBps`, validation never
produces a slippage violation whatever `maxSlippageBps` is, yet the
quote request `execute` issues for that action carries the default
slippage of 50 basis points. -/
theorem absent_slippage_skips_check_defaulting_50 (p : AgentPolicy)
    (im om amt path : String) (sm : Option SwapMode) (n : Int) (env : ExecEnv)
    (hparse : parseBigInt amt = some n)
    (hconf : env.confirm? = none ∨ ∃ f, env.confirm? = some f ∧
      f (.swapJupiter im om amt none sm) = true) :
    (∃ vs, validateActionPolicy (.swapJupiter im om amt none sm) p path
        = .ok vs ∧
      ∀ v ∈ vs, v.message ≠ "slippageBps exceeds maxSlippageBps") ∧
    CollabCall.quoteCall ⟨im, om, amt, 50, sm⟩ ∈
      (execAction env (.swapJupiter im om amt none sm)).1 := by
  constructor
  · cases hok : validateActionPolicy (.swapJupiter im om amt none sm) p path with
    | error e =>
      exfalso
      simp [validateActionPolicy, hparse] at hok
    | ok vs =>
      refine ⟨vs, rfl, ?_⟩
      simp only [validateActionPolicy, hparse, Except.ok.injEq] at hok
      subst hok
      intro v hv
      cases hs : jsTruthy p.allowAllSwaps <;>
        cases hm : p.maxSwapAmount <;>
        simp [hs, hm] at hv
      all_goals first
        | (rcases hv with ⟨_, rfl⟩ | ⟨_, rfl⟩ | ⟨_, rfl⟩ <;> simp)
        | (rcases hv with ⟨_, rfl⟩ | ⟨_, rfl⟩ <;> simp)
        | (rcases hv with ⟨_, rfl⟩; simp)
  · have hmem : CollabCall.quoteCall ⟨im, om, amt, 50, sm⟩ ∈
        (runAction env (.swapJupiter im om amt none sm)).1 := by
      simp only [runAction]
      cases h : env.getJupiterQuote ⟨im, om, amt, 50, sm⟩ with
      | error e => simp [h]
      | ok q => cases h2 : env.executeJupiterSwap q <;> simp [h, h2]
    rcases hconf with h | ⟨f, hf, hfa⟩
    · simpa [execAction, h] using hmem
    · rcases hr : runAction env (.swapJupiter im om amt none sm) with ⟨tr, r⟩
      rw [hr] at hmem
      simp [execAction, hf, hfa, hr]
      simpa using hmem

/-- Witness for `absent_slippage_skips_check_defaulting_50`. -/
theorem absent_slippage_skips_check_defaulting_50_witness :
    (∃ vs, validateActionPolicy (.swapJupiter "A" "B" "7" none none) {}
        "actions[0]" = .ok vs ∧
      ∀ v ∈ vs, v.message ≠ "slippageBps exceeds maxSlippageBps") ∧
    CollabCall.quoteCall ⟨"A", "B", "7", 50, none⟩ ∈
      (execAction failingSwapEnv (.swapJupiter "A" "B" "7" none none)).1 :=
  absent_slippage_skips_check_defaulting_50 {} "A" "B" "7" "actions[0]"
    none 7 failingSwapEnv rfl (Or.inl rfl)

/-- Claim C9: if the configured confirmation capability answers `false` for
an action, that action produces only the confirmation call — no
collaborator call and no signature — and the loop continues with the
remaining actions unchanged; with no capability configured, the action
runs as if confirmed. -/
theorem confirmation_gating (env : ExecEnv) (a : AgentAction)
    (rest : List AgentAction) (f : AgentAction → Bool) :
    (env.confirm? = some f → f a = false →
      execAction env a = ([.confirmCall a], .ok none) ∧
      executeActions env (a :: rest) =
        (.confirmCall a :: (executeActions env rest).1,
         (executeActions env rest).2)) ∧
    (env.confirm? = none → execAction env a = runAction env a) := by
  constructor
  · intro hc hf
    have he : execAction env a = ([.confirmCall a], .ok none) := by
      simp [execAction, hc, hf]
    refine ⟨he, ?_⟩
    rcases hrest : executeActions env rest with ⟨tr2, r2⟩
    cases r2 <;> simp [executeActions, he, hrest]
  · intro hc
    simp [execAction, hc]

/-- Witness for `confirmation_gating` with a refuse-all and an absent
confirmation capability. -/
theorem confirmation_gating_witness :
    (execAction denyAllEnv (.transferSol "Alice" "5")
        = ([.confirmCall (.transferSol "Alice" "5")], .ok none) ∧
      executeActions denyAllEnv
          (AgentAction.transferSol "Alice" "5" :: [.noop none]) =
        (.confirmCall (.transferSol "Alice" "5") ::
          (executeActions denyAllEnv [.noop none]).1,
         (executeActions denyAllEnv [.noop none]).2)) ∧
    execAction failingSwapEnv (.transferSol "Alice" "5")
      = runAction failingSwapEnv (.transferSol "Alice" "5") :=
  ⟨(confirmation_gating denyAllEnv (.transferSol "Alice" "5") [.noop none]
      (fun _ => false)).1 rfl rfl,
   (confirmation_gating failingSwapEnv (.transferSol "Alice" "5") []
      (fun _ => true)).2 rfl⟩

/-- Claim C10: `proposePlan` normalization: a parsed response that is not
an object (in the JS sense: `null`, booleans, numbers, strings) becomes
the single-noop invalid-plan fallback for the given goal; an
object-like response without an array `actions` field gets its actions
coerced to the single noop (then truncated); and an array `actions`
field is truncated to its first `maxActions` entries in original order,
silently. -/
theorem propose_plan_normalizes_untrusted_response (goal : String)
    (maxActions : Nat) (resp : JsonValue) :
    (jsFalsyOrNotObject resp = true →
      proposePlanNormalize goal maxActions resp =
        { base := invalidPlanBase goal, actions := [noopActionJson] }) ∧
    (jsFalsyOrNotObject resp = false →
      (∀ xs, getActionsField resp ≠ some (.arr xs)) →
      proposePlanNormalize goal maxActions resp =
        { base := resp, actions := [noopActionJson].take maxActions } ∧
      (1 ≤ maxActions → [noopActionJson].take maxActions = [noopActionJson])) ∧
    (∀ xs, jsFalsyOrNotObject resp = false →
      getActionsField resp = some (.arr xs) →
      proposePlanNormalize goal maxActions resp =
        { base := resp, actions := xs.take maxActions } ∧
      (xs.take maxActions).length = min maxActions xs.length ∧
      xs.take maxActions ++ xs.drop maxActions = xs) := by
  refine ⟨?_, ?_, ?_⟩
  · intro h
    simp [proposePlanNormalize, h]
  · intro h hne
    refine ⟨?_, ?_⟩
    · cases hg : getActionsField resp with
      | none => simp [proposePlanNormalize, h, hg]
      | some v =>
        cases v <;> first
          | exact absurd hg (hne _)
          | simp [proposePlanNormalize, h, hg]
    · intro hm
      obtain ⟨k, rfl⟩ : ∃ k, maxActions = k + 1 := ⟨maxActions - 1, by omega⟩
      simp
  · intro xs h hg
    refine ⟨?_, by simp, List.take_append_drop _ _⟩
    simp [proposePlanNormalize, h, hg]

/-- Witness for `propose_plan_normalizes_untrusted_response`, including the
spec's five-actions / `maxActions = 2` truncation example. -/
theorem propose_plan_normalizes_untrusted_response_witness :
    proposePlanNormalize "g" 2 (.str "x") =
      { base := invalidPlanBase "g", actions := [noopActionJson] } ∧
    (proposePlanNormalize "g" 2 (.obj []) =
      { base := .obj [], actions := [noopActionJson].take 2 } ∧
      (1 ≤ 2 → [noopActionJson].take 2 = [noopActionJson])) ∧
    (proposePlanNormalize "g" 2 fiveActionResp =
      { base := fiveActionResp, actions := fiveActions.take 2 } ∧
      (fiveActions.take 2).length = min 2 fiveActions.length ∧
      fiveActions.take 2 ++ fiveActions.drop 2 = fiveActions) :=
  ⟨(propose_plan_normalizes_untrusted_response "g" 2 (.str "x")).1 rfl,
   (propose_plan_normalizes_untrusted_response "g" 2 (.obj [])).2.1 rfl
     (fun _ h => Option.noConfusion h),
   (propose_plan_normalizes_untrusted_response "g" 2 fiveActionResp).2.2
     fiveActions rfl rfl⟩

/-- Claim C1, amended: if every action before `a` succeeds and the
collaborator call for `a` fails with error `e`, then the actions after `a`
are never attempted (the run is identical to one in which they do not
exist) and the execution loop surfaces exactly the underlying error `e`;
contrary to the claim, the error does not identify the failing index and
the earlier signatures are lost with the thrown error. -/
theorem collaborator_failure_aborts_remaining_actions (env : ExecEnv)
    (pre post : List AgentAction) (a : AgentAction) (tra : List CollabCall)
    (e : String)
    (hpre : ∀ b ∈ pre, ∃ tr s, execAction env b = (tr, Except.ok s))
    (ha : execAction env a = (tra, Except.error e)) :
    executeActions env (pre ++ a :: post) = executeActions env (pre ++ [a]) ∧
    (executeActions env (pre ++ a :: post)).2 = Except.error e := by
  induction pre with
  | nil =>
    constructor <;> simp [executeActions, ha]
  | cons b pre ih =>
    obtain ⟨tr, s, hb⟩ := hpre b (List.mem_cons_self _ _)
    obtain ⟨ih1, ih2⟩ := ih (fun c hc => hpre c (List.mem_cons_of_mem _ hc))
    constructor
    · simp only [List.cons_append, executeActions, hb, List.append_eq]
      rw [ih1]
    · rcases h2 : executeActions env (pre ++ [a]) with ⟨tr2, r2⟩
      have hr2 : r2 = Except.error e := by
        rw [ih1, h2] at ih2
        exact ih2
      subst hr2
      simp only [List.cons_append, executeActions, hb, List.append_eq]
      rw [ih1, h2]

/-- Claim C1, counterexample to the claim as stated: on the spec's own
three-action example (valid transfer, swap failing at submission, valid
transfer) `execute` surfaces the swap collaborator's error `"boom"`
verbatim — a digit-free message that identifies no action index — and,
because the outcome is an `error` and not a list, the signature `"sig1"`
of the already-completed first transfer is not preserved in any result
the caller can query. The trace also shows the third action was never
attempted (no call mentions `"Bob"`). -/
theorem collaborator_failure_error_lacks_index_and_sigs :
    ClaudeAgent.execute (some allowAllPolicy) failingSwapEnv threeActionPlan =
      ([.asPublicKeyCall "Alice", .transferCall "Alice" 5,
        .quoteCall ⟨"A", "B", "7", 50, none⟩, .swapCall ⟨"quote"⟩],
       .error "boom") ∧
    failingSwapEnv.transferSol "Alice" 5 = .ok "sig1" ∧
    ("boom".toList.all (fun c => !c.isDigit)) = true :=
  ⟨rfl, rfl, rfl⟩

/-- Witness for `collaborator_failure_aborts_remaining_actions` on the
spec's example plan. -/
theorem collaborator_failure_aborts_remaining_actions_witness :
    executeActions failingSwapEnv ([.transferSol "Alice" "5"] ++
        AgentAction.swapJupiter "A" "B" "7" none none ::
          [.transferSol "Bob" "5"]) =
      executeActions failingSwapEnv ([.transferSol "Alice" "5"] ++
        [.swapJupiter "A" "B" "7" none none]) ∧
    (executeActions failingSwapEnv ([.transferSol "Alice" "5"] ++
        AgentAction.swapJupiter "A" "B" "7" none none ::
          [.transferSol "Bob" "5"])).2 = .error "boom" :=
  collaborator_failure_aborts_remaining_actions failingSwapEnv
    [.transferSol "Alice" "5"] [.transferSol "Bob" "5"]
    (.swapJupiter "A" "B" "7" none none)
    [.quoteCall ⟨"A", "B", "7", 50, none⟩, .swapCall ⟨"quote"⟩] "boom"
    (by
      intro b hb
      simp at hb
      subst hb
      exact ⟨[.asPublicKeyCall "Alice", .transferCall "Alice" 5],
        some "sig1", rfl⟩)
    rfl
